import Mathlib

/-!
Verification of the openapi2moonwalk transformation core (`src/visitor.ts` and the
CombinedVisitorAdapter-based `OperationVisitor`) against its natural-language
specification.  The node data model follows the spec's §3 source model (path items
carry the five operations get/put/post/patch/delete that the code consults); the
external node-to-JSON serializer (`Library.writeNode`) is an external collaborator
and is taken as a function parameter.  JavaScript object maps are modelled as
association lists with overwrite-on-collision insertion, JS string truthiness
(`x || y`) is modelled explicitly, and JS runtime type errors (property access on
`undefined`) are modelled with `Except`.
-/

namespace O2M

/-- Word character of the JavaScript regex class `\w`: ASCII letter, digit or underscore. -/
def isWordChar (c : Char) : Bool :=
  c.isAlphanum || c == '_'

/-- ASCII lower-casing, modelling `String.prototype.toLowerCase` on the ASCII
content types this converter manipulates. -/
def jsToLower (c : Char) : Char :=
  c.toLower

/-- JavaScript `x || d` on a possibly-absent string: `null`/`undefined` and the
empty string are falsy and fall through to the default. -/
def jsOrString (o : Option String) (d : String) : String :=
  match o with
  | none => d
  | some s => if s = "" then d else s

/-- JavaScript `x || undefined` on a possibly-absent string: collapses the falsy
empty string to an absent value, as the visitors do for optional fields. -/
def jsOrUndef (o : Option String) : Option String :=
  match o with
  | none => none
  | some s => if s = "" then none else some s

/-- Truthiness of a possibly-absent string (`if (x)` in JavaScript). -/
def jsTruthy (o : Option String) : Bool :=
  match o with
  | none => false
  | some s => !(s == "")

/-- Scanner for the global replacement `s.replace(/\W+(?!$)/g, "-")`.
The state records whether we are inside a run of non-word characters: `none`
outside a run, `some (ge2, last)` inside one, where `ge2` says the run has at
least two characters so far and `last` is its most recent character.  Because of
regex backtracking, a run that reaches the end of the string still matches all
but its final character when it has length at least two, so such a trailing run
becomes a hyphen followed by its last character. -/
def repRunsGo : List Char → Option (Bool × Char) → List Char
  | [], none => []
  | [], some (false, lc) => [lc]
  | [], some (true, lc) => ['-', lc]
  | c :: cs, st =>
    if isWordChar c then
      match st with
      | none => c :: repRunsGo cs none
      | some _ => '-' :: (c :: repRunsGo cs none)
    else
      match st with
      | none => repRunsGo cs (some (false, c))
      | some _ => repRunsGo cs (some (true, c))

/-- Character-list form of `s.replace(/\W+(?!$)/g, "-")`. -/
def repRuns (l : List Char) : List Char :=
  repRunsGo l none

/-- Character-list form of the sanitizer `s.replace(/\W+(?!$)/g, "-").toLowerCase()`
used for request keys and qualified response keys. -/
def sanitizeL (l : List Char) : List Char :=
  (repRuns l).map jsToLower

/-- Sanitization of a content type, from `visitOperation` and `visitResponse`:
`contentType.replace(/\W+(?!$)/g, "-").toLowerCase()`. -/
def sanitize (s : String) : String :=
  String.mk (sanitizeL s.data)

/-- Longest prefix of characters whose word-ness equals `b`. -/
def takeClass (b : Bool) : List Char → List Char
  | [] => []
  | c :: cs => if isWordChar c == b then c :: takeClass b cs else []

/-- Remainder after `takeClass b`. -/
def dropClass (b : Bool) : List Char → List Char
  | [] => []
  | c :: cs => if isWordChar c == b then dropClass b cs else c :: cs

/-- Decomposition of a string into its maximal runs of word and non-word
characters, the notion the spec's sanitization sentence is phrased in.
Defined by a right fold so that it is structurally recursive: a character is
merged into the following run when both have the same word-ness. -/
def splitRuns : List Char → List (List Char)
  | [] => []
  | c :: cs =>
    match splitRuns cs with
    | [] => [[c]]
    | r :: rs =>
      match r with
      | [] => [[c]]
      | d :: _ => if isWordChar c == isWordChar d then (c :: r) :: rs else [c] :: r :: rs

/-- Rendering of a non-trailing run under the replacement: word runs are kept,
non-word runs collapse to a single hyphen. -/
def renderRun (r : List Char) : List Char :=
  match r with
  | [] => []
  | c :: _ => if isWordChar c then r else ['-']

/-- Rendering of the final run as the code actually behaves: a word run is kept;
a trailing non-word run of length one is left untouched, and a longer one is
replaced by a hyphen followed by its last character. -/
def renderTrailingRun (r : List Char) : List Char :=
  match r with
  | [] => []
  | c :: rs =>
    if isWordChar c then r
    else
      match rs with
      | [] => [c]
      | _ :: _ => ['-', rs.getLastD c]

/-- Run-based rendering with the code's trailing behaviour. -/
def renderRuns : List (List Char) → List Char
  | [] => []
  | r :: rs =>
    match rs with
    | [] => renderTrailingRun r
    | _ :: _ => renderRun r ++ renderRuns rs

/-- Run-based rendering as the claim states it: a trailing run of non-word
characters is left entirely untouched. -/
def renderRunsClaim : List (List Char) → List Char
  | [] => []
  | r :: rs =>
    match rs with
    | [] => r
    | _ :: _ => renderRun r ++ renderRunsClaim rs

/-- Sanitization as the claim describes it, phrased over maximal runs:
lower-case, replace each maximal non-trailing non-word run by one hyphen, and
leave a trailing non-word run entirely untouched. -/
def claimSanitizeL (l : List Char) : List Char :=
  (renderRunsClaim (splitRuns l)).map jsToLower

/-- Sanitization phrased over maximal runs with the trailing behaviour the code
actually has (see `renderTrailingRun`). -/
def amendedSanitizeL (l : List Char) : List Char :=
  (renderRuns (splitRuns l)).map jsToLower

/-- Lookup in a JavaScript-object-like association list. -/
def lookupKV {β : Type} (m : List (String × β)) (k : String) : Option β :=
  (m.find? (fun p => p.1 == k)).map (fun p => p.2)

/-- Insertion into a JavaScript-object-like association list: assigning to an
existing key overwrites its value in place, a new key is appended. -/
def insertKV {β : Type} (m : List (String × β)) (k : String) (v : β) : List (String × β) :=
  if m.any (fun p => p.1 == k) then
    m.map (fun p => if p.1 == k then (k, v) else p)
  else
    m ++ [(k, v)]

/-- Plain JSON-compatible values, the output type of the external node-to-JSON
serializer `Library.writeNode` (treated as a function parameter throughout). -/
inductive Json where
  | null
  | str (s : String)
  | obj (members : List (String × Json))

/-- Source schema node (`Oas30Schema`): the fields the visitors read. -/
structure Oas30Schema where
  type : Option String := none
  format : Option String := none
  description : Option String := none

/-- Source parameter node (`Oas30Parameter`).  A `$ref` parameter carries no
location, so its `in` is absent. -/
structure Oas30Parameter where
  name : String := ""
  «in» : Option String := none
  required : Bool := false
  ref : Option String := none
  schema : Option Oas30Schema := none

/-- Source media type node (`Oas30MediaType`): its name (the content type) and
its optional schema. -/
structure Oas30MediaType where
  name : String
  schema : Option Oas30Schema := none

/-- Source request body node: `getMediaTypes()` returns `content` in declared
order, with distinct names (JSON object keys). -/
structure Oas30RequestBody where
  content : List Oas30MediaType := []

/-- Source response node.  `statusCode = none` models the `default` response,
for which `getStatusCode()` returns null. -/
structure Oas30Response where
  statusCode : Option String := none
  description : String := ""
  mediaTypes : List Oas30MediaType := []

/-- Source operation node: the fields the visitors read. -/
structure Oas30Operation where
  operationId : Option String := none
  method : String := ""
  description : Option String := none
  summary : Option String := none
  tags : Option (List String) := none
  parameters : List Oas30Parameter := []
  requestBody : Option Oas30RequestBody := none
  responses : List Oas30Response := []

/-- Source path item node, per the spec's §3 source model: a path string, the
five optional operations `getPathKey` consults, path-level parameters, and
summary/description. -/
structure Oas30PathItem where
  path : String := ""
  get : Option Oas30Operation := none
  put : Option Oas30Operation := none
  post : Option Oas30Operation := none
  patch : Option Oas30Operation := none
  delete : Option Oas30Operation := none
  parameters : List Oas30Parameter := []
  summary : Option String := none
  description : Option String := none

/-- Query parameter names of one operation, from `getPathKey`:
`op.parameters?.filter((v) => v.in === "query").map((v) => v.name) || []`. -/
def qpsForOp (op : Oas30Operation) : List String :=
  (op.parameters.filter (fun v => v.«in» == some "query")).map (fun v => v.name)

/-- The operation slots `getPathKey` scans, in its order:
`[node.get, node.put, node.post, node.patch, node.delete]`. -/
def pathOps (node : Oas30PathItem) : List (Option Oas30Operation) :=
  [node.get, node.put, node.post, node.patch, node.delete]

/-- JavaScript `Set.add`: keep the first occurrence, appending unseen names. -/
def addToSet (acc : List String) (n : String) : List String :=
  if acc.contains n then acc else acc ++ [n]

/-- The query-parameter name set of a path item in insertion order, modelling
the `Set<string>` built by `getPathKey` over the non-null operations. -/
def queryParams (node : Oas30PathItem) : List String :=
  ((pathOps node).filterMap id).foldl (fun acc op => (qpsForOp op).foldl addToSet acc) []

/-- Memoized `getPathKey`: the cache models the module-level `pathKeys` map
keyed by the raw OAS path.  Returns the updated cache and the path key. -/
def getPathKey (cache : List (String × String)) (node : Oas30PathItem) :
    List (String × String) × String :=
  match lookupKV cache node.path with
  | some k => (cache, k)
  | none =>
    let qp := queryParams node
    let k := if qp.isEmpty then node.path
      else node.path ++ "\x7b?" ++ String.intercalate "," qp ++ "\x7d"
    (insertKV cache node.path k, k)

/-- First-encounter deduplication, the spec-side reading of "duplicates
collapsed, comma-joined in first-encounter order". -/
def dedupFirst : List String → List String
  | [] => []
  | x :: xs => x :: (dedupFirst xs).filter (fun y => !(y == x))

/-- Every query-parameter name declared across the five operations, in
traversal order and with duplicates kept. -/
def allQueryNames (node : Oas30PathItem) : List String :=
  ((pathOps node).filterMap id).flatMap qpsForOp

/-- The static status-code-to-reason-phrase table (`responseNameMap`). -/
def responseNameMap : List (String × String) :=
  [("200", "OK"), ("201", "Created"), ("202", "Accepted"), ("204", "No Content"),
   ("400", "Bad Request"), ("401", "Unauthorized"), ("403", "Forbidden"),
   ("404", "Not Found"), ("405", "Method Not Allowed")]

/-- The status-code string used in response entries:
`node.getStatusCode() || "default"`. -/
def statusCodeOf (sc : Option String) : String :=
  jsOrString sc "default"

/-- The base response name: `responseNameMap.get(statusCode) || statusCode`. -/
def responseNameBase (sc : Option String) : String :=
  match lookupKV responseNameMap (statusCodeOf sc) with
  | some v => v
  | none => statusCodeOf sc

/-- One entry of a request's `responses` map. -/
structure ResponseEntry where
  statusCode : String := ""
  description : String := ""
  contentType : Option String := none
  contentSchema : Option Json := none

/-- Parameter schema assembled on a request by the operation sub-walk. -/
structure ParamSchema where
  type : String := "object"
  properties : List (String × Json) := []
  required : Option (List String) := none
  allOf : Option (List Json) := none

/-- The request object a `CombinedVisitorAdapter` `OperationVisitor` builds. -/
structure Request where
  description : Option String := none
  summary : Option String := none
  method : String := ""
  parameterSchema : Option ParamSchema := none
  contentType : Option String := none
  contentSchema : Option Json := none
  tags : Option (List String) := none
  responses : List (String × ResponseEntry) := []

/-- The message of a JavaScript `TypeError` raised by reading a property of
`undefined`, the only failure the modelled visitors can raise. -/
def undefinedDeref : String :=
  "TypeError: cannot read properties of undefined"

/-- The `visitOperation` callback of the CombinedVisitorAdapter
`OperationVisitor`: it replaces the request object wholesale. -/
def visitOperationStep (ct : Option String) (op : Oas30Operation) : Request :=
  { description := jsOrUndef op.description
    summary := jsOrUndef op.summary
    method := op.method
    parameterSchema :=
      if op.parameters.any (fun p => p.«in» == some "path" || p.«in» == some "query") then
        some { type := "object", properties := [] }
      else none
    contentType := ct
    contentSchema := if jsTruthy ct then some (Json.obj []) else none
    tags := op.tags
    responses := [] }

/-- The `visitParameter` callback of the CombinedVisitorAdapter
`OperationVisitor`: it dereferences `this.request["parameterSchema"]` without a
guard, so it faults when the skeleton was not created. -/
def visitParameterStep (wnp : Oas30Parameter → Json) (wns : Option Oas30Schema → Json)
    (req : Request) (p : Oas30Parameter) : Except String Request :=
  match req.parameterSchema with
  | none => .error undefinedDeref
  | some ps =>
    if jsTruthy p.ref then
      let ps2 : ParamSchema := { ps with allOf := some (ps.allOf.getD [] ++ [wnp p]) }
      .ok { req with parameterSchema := some ps2 }
    else
      let ps2 : ParamSchema :=
        { ps with
          properties := insertKV ps.properties p.name (wns p.schema)
          required :=
            if p.required then some (ps.required.getD [] ++ [p.name]) else ps.required }
      .ok { req with parameterSchema := some ps2 }

/-- The `visitRequestBody` callback: serializes the schema of the media type
matching this visitor's content type (`node.content[this.contentType]?.schema`). -/
def visitRequestBodyStep (wns : Option Oas30Schema → Json) (ct : Option String)
    (rb : Oas30RequestBody) (req : Request) : Request :=
  let sch : Option Oas30Schema :=
    match ct with
    | none => none
    | some c => (rb.content.find? (fun mt => mt.name == c)).bind (fun mt => mt.schema)
  { req with contentSchema := some (wns sch) }

/-- The `visitResponse` callback of the CombinedVisitorAdapter
`OperationVisitor`: a base-named entry when there is at most one media type,
plus one type-qualified entry per media type. -/
def visitResponseStep (wns : Option Oas30Schema → Json) (req : Request)
    (node : Oas30Response) : Request :=
  let sc := statusCodeOf node.statusCode
  let base := responseNameBase node.statusCode
  let mts := node.mediaTypes
  let responses :=
    if mts.length ≤ 1 then
      let e0 : ResponseEntry :=
        match mts with
        | [mt] =>
          { statusCode := sc, description := node.description
            contentType := some mt.name, contentSchema := some (wns mt.schema) }
        | _ => { statusCode := sc, description := node.description }
      insertKV req.responses base e0
    else req.responses
  let responses := mts.foldl
    (fun rs mt =>
      insertKV rs (base ++ "-" ++ sanitize mt.name)
        { statusCode := sc, description := node.description
          contentType := some mt.name, contentSchema := some (wns mt.schema) })
    responses
  { req with responses := responses }

/-- The sub-walk `Library.visitTree(node, opVisitor, TraverserDirection.down)`
rooted at an operation: the operation callback first, then each parameter, the
request body when present, and each response. -/
def opSubWalk (wns : Option Oas30Schema → Json) (wnp : Oas30Parameter → Json)
    (ct : Option String) (op : Oas30Operation) : Except String Request :=
  match op.parameters.foldlM (visitParameterStep wnp wns) (visitOperationStep ct op) with
  | .error e => .error e
  | .ok req =>
    let req :=
      match op.requestBody with
      | none => req
      | some rb => visitRequestBodyStep wns ct rb req
    .ok (op.responses.foldl (visitResponseStep wns) req)

/-- The content types declared on an operation's request body:
`node.requestBody?.getMediaTypes().map((n) => n.getName()) || []`. -/
def contentTypesOf (op : Oas30Operation) : List String :=
  match op.requestBody with
  | none => []
  | some rb => rb.content.map (fun mt => mt.name)

/-- The single-content-type request key: `node.operationId || node.getMethod()`. -/
def requestBase (op : Oas30Operation) : String :=
  jsOrString op.operationId op.method

/-- The request key as the claims state it: the operationId or, if absent, the
method name (no JavaScript falsy fallback for a present-but-empty id). -/
def claimRequestBase (op : Oas30Operation) : String :=
  match op.operationId with
  | some s => s
  | none => op.method

/-- The fan-out part of `Oas30Visitor.visitOperation`: one sub-walk and one
insertion for at most one content type, one per content type otherwise, with
keys `<base>` and `<base>-<sanitized>` respectively. -/
def docVisitOperationFold (wns : Option Oas30Schema → Json) (wnp : Oas30Parameter → Json)
    (requests : List (String × Request)) (op : Oas30Operation) :
    Except String (List (String × Request)) :=
  let cts := contentTypesOf op
  if cts.length ≤ 1 then
    match opSubWalk wns wnp (cts.find? (fun s => !(s == ""))) op with
    | .error e => .error e
    | .ok r => .ok (insertKV requests (requestBase op) r)
  else
    cts.foldlM
      (fun m ct =>
        match opSubWalk wns wnp (some ct) op with
        | .error e => .error e
        | .ok r => .ok (insertKV m (requestBase op ++ "-" ++ sanitize ct) r))
      requests

/-- One property of a document-level `parameterSchema`: the `{type, format,
description}` triple `Oas30Visitor.visitParameter` stores. -/
structure PropEntry where
  type : Option String := none
  format : Option String := none
  description : Option String := none

/-- Path-level parameter schema.  `required` and `allOf` are part of the target
shape the spec describes; whether the code ever populates them is exactly what
claim C6 is about. -/
structure PathParamSchema where
  type : String := "object"
  properties : List (String × PropEntry) := []
  required : Option (List String) := none
  allOf : Option (List Json) := none

/-- One entry of the document's `paths` map. -/
structure PathEntry where
  summary : Option String := none
  description : Option String := none
  parameterSchema : Option PathParamSchema := none
  requests : Option (List (String × Request)) := none

/-- The `{type, format, description}` triple stored for an inline parameter's
schema, each field read with `|| undefined`. -/
def propEntryOf (sch : Oas30Schema) : PropEntry :=
  { type := jsOrUndef sch.type
    format := jsOrUndef sch.format
    description := jsOrUndef sch.description }

/-- The path-level branch of `Oas30Visitor.visitParameter` (parent is the path
item): skip parameters that are not path- or query-located, create the
`parameterSchema` skeleton on first use, then store the schema triple under
`properties[name]`.  Reading `.type` of an absent schema is a JS `TypeError`. -/
def docVisitParameter (entry : PathEntry) (p : Oas30Parameter) : Except String PathEntry :=
  if !(p.«in» == some "path" || p.«in» == some "query") then .ok entry
  else
    let ps := entry.parameterSchema.getD { type := "object", properties := [] }
    match p.schema with
    | none => .error undefinedDeref
    | some sch =>
      let ps2 : PathParamSchema :=
        { ps with properties := insertKV ps.properties p.name (propEntryOf sch) }
      .ok { entry with parameterSchema := some ps2 }

/-- Path-level parameter handling as claim C6 words it: skip non-path/query
locations; append a serialized `$ref` parameter to `allOf`; store an inline
parameter's schema under `properties[name]` and, when required, append the name
to a `required` list. -/
def claimedDocVisitParameter (wnp : Oas30Parameter → Json) (entry : PathEntry)
    (p : Oas30Parameter) : PathEntry :=
  if !(p.«in» == some "path" || p.«in» == some "query") then entry
  else
    let ps := entry.parameterSchema.getD { type := "object", properties := [] }
    if jsTruthy p.ref then
      let ps2 : PathParamSchema := { ps with allOf := some (ps.allOf.getD [] ++ [wnp p]) }
      { entry with parameterSchema := some ps2 }
    else
      let ps2 : PathParamSchema :=
        { ps with
          properties := insertKV ps.properties p.name (propEntryOf (p.schema.getD {}))
          required :=
            if p.required then some (ps.required.getD [] ++ [p.name]) else ps.required }
      { entry with parameterSchema := some ps2 }

/-- Path-level parameter handling as the amended claim words it: skip
parameters that are not path- or query-located (a `$ref` parameter carries no
location and is therefore skipped); store an inline parameter's schema triple
under `properties[name]`, creating the skeleton on first use; `required` and
`allOf` are never touched. -/
def amendedDocVisitParameter (entry : PathEntry) (p : Oas30Parameter) : PathEntry :=
  if !(p.«in» == some "path" || p.«in» == some "query") then entry
  else
    let ps := entry.parameterSchema.getD { type := "object", properties := [] }
    let ps2 : PathParamSchema :=
      { ps with properties := insertKV ps.properties p.name (propEntryOf (p.schema.getD {})) }
    { entry with parameterSchema := some ps2 }

/-- The document-level walk of one path item: `visitPathItem` creates the
entry, then the path-level parameters are visited, then each present operation
is visited (creating the `requests` container on first use and running the
fan-out). -/
def processPathItem (wns : Option Oas30Schema → Json) (wnp : Oas30Parameter → Json)
    (cache : List (String × String)) (pi : Oas30PathItem) :
    Except String (List (String × String) × String × PathEntry) :=
  let ck := getPathKey cache pi
  let entry : PathEntry := { summary := jsOrUndef pi.summary, description := jsOrUndef pi.description }
  match pi.parameters.foldlM docVisitParameter entry with
  | .error e => .error e
  | .ok entry =>
    match ((pathOps pi).filterMap id).foldlM
        (fun (e : PathEntry) op =>
          match docVisitOperationFold wns wnp (e.requests.getD []) op with
          | .error err => Except.error err
          | .ok reqs => Except.ok { e with requests := some reqs })
        entry with
    | .error e => .error e
    | .ok entry => .ok (ck.1, ck.2, entry)

/-- Condition under which the operation sub-walk cannot fault: either no
parameters are visited, or the `parameterSchema` skeleton exists because some
declared parameter is path- or query-located. -/
def safeParams (op : Oas30Operation) : Prop :=
  op.parameters = [] ∨
    op.parameters.any (fun p => p.«in» == some "path" || p.«in» == some "query") = true

/-- The request the sub-walk produces when it succeeds. -/
def opSubWalkD (wns : Option Oas30Schema → Json) (wnp : Oas30Parameter → Json)
    (ct : Option String) (op : Oas30Operation) : Request :=
  match opSubWalk wns wnp ct op with
  | .ok r => r
  | .error _ => { method := op.method }

/-- Serializer stub used in concrete witnesses (the serializer is external). -/
def wnsNull : Option Oas30Schema → Json := fun _ => Json.null

/-- Parameter serializer stub used in concrete witnesses. -/
def wnpNull : Oas30Parameter → Json := fun _ => Json.null

/-- A required inline query parameter, `limit : integer`. -/
def qParam : Oas30Parameter :=
  { name := "limit", «in» := some "query", required := true,
    schema := some { type := some "integer" } }

/-- A `$ref` parameter: it carries no location. -/
def refParam : Oas30Parameter :=
  { ref := some "#/components/parameters/p1" }

/-- A path item with one GET operation taking the query parameter `limit`. -/
def piC7 : Oas30PathItem :=
  { path := "/pets", get := some { method := "get", parameters := [qParam] } }

/-- A path item with no operations and no parameters. -/
def piNoOps : Oas30PathItem :=
  { path := "/things" }

/-- An operation with no operationId and no request body, method GET. -/
def opNoId : Oas30Operation :=
  { method := "get" }

/-- An operation with a present-but-empty operationId (JS-falsy). -/
def opEmptyId : Oas30Operation :=
  { operationId := some "", method := "get" }

/-- An operation with two request-body content types. -/
def opTwoCts : Oas30Operation :=
  { operationId := some "op1", method := "post",
    requestBody := some { content := [{ name := "application/json" }, { name := "text/plain" }] } }

/-- An operation with an empty operationId and two content types. -/
def opEmptyIdTwoCts : Oas30Operation :=
  { operationId := some "", method := "get",
    requestBody := some { content := [{ name := "application/json" }, { name := "text/plain" }] } }

/-- An operation whose two distinct content types sanitize to the same key. -/
def opCollide : Oas30Operation :=
  { operationId := some "op", method := "post",
    requestBody := some { content := [{ name := "a+b" }, { name := "a-b" }] } }

/-- An operation whose only parameter is a `$ref` (no path/query location). -/
def opAllRef : Oas30Operation :=
  { method := "get", parameters := [refParam] }

/-- A response with one media type. -/
def respOneMt : Oas30Response :=
  { statusCode := some "200", description := "ok", mediaTypes := [{ name := "application/json" }] }

/-- A response with no status code and no media types. -/
def respNoMt : Oas30Response :=
  { statusCode := none, description := "d" }

/-- A response with two media types whose sanitized names differ. -/
def respTwoMt : Oas30Response :=
  { statusCode := some "200", description := "ok",
    mediaTypes := [{ name := "application/json" }, { name := "text/plain" }] }

/-- An empty request fixture. -/
def reqEmpty : Request :=
  { method := "get" }

/-- An empty path entry fixture. -/
def entryEmpty : PathEntry := {}

theorem takeClass_length_le (b : Bool) (l : List Char) : (takeClass b l).length ≤ l.length := by
  induction l with
  | nil => simp [takeClass]
  | cons c cs ih =>
    simp only [takeClass]
    by_cases h : isWordChar c = b
    · simpa [h] using ih
    · simp [h]

theorem dropClass_length_le (b : Bool) (l : List Char) : (dropClass b l).length ≤ l.length := by
  induction l with
  | nil => simp [dropClass]
  | cons c cs ih =>
    simp only [dropClass]
    by_cases h : isWordChar c = b
    · simp only [h, beq_self_eq_true, if_true]
      exact le_trans ih (Nat.le_succ _)
    · simp [h]

theorem splitRuns_cons (c : Char) (cs : List Char) :
    splitRuns (c :: cs) =
      (c :: takeClass (isWordChar c) cs) :: splitRuns (dropClass (isWordChar c) cs) := by
  induction cs generalizing c with
  | nil => simp [splitRuns, takeClass, dropClass]
  | cons d ds ih =>
    by_cases h : isWordChar c = isWordChar d
    · rw [show splitRuns (c :: d :: ds) = match splitRuns (d :: ds) with
          | [] => [[c]]
          | r :: rs =>
            match r with
            | [] => [[c]]
            | e :: _ => if isWordChar c == isWordChar e then (c :: r) :: rs else [c] :: r :: rs
          from rfl, ih d, h]
      simp [takeClass, dropClass]
    · have hbe2 : (isWordChar d == isWordChar c) = false := by
        simpa using fun hh => h hh.symm
      rw [show splitRuns (c :: d :: ds) = match splitRuns (d :: ds) with
          | [] => [[c]]
          | r :: rs =>
            match r with
            | [] => [[c]]
            | e :: _ => if isWordChar c == isWordChar e then (c :: r) :: rs else [c] :: r :: rs
          from rfl, ih d]
      have hbe : (isWordChar c == isWordChar d) = false := by simpa using h
      simp [hbe, hbe2, takeClass, dropClass, ← ih d]

theorem splitRuns_eq_nil_iff (l : List Char) : splitRuns l = [] ↔ l = [] := by
  cases l with
  | nil => simp [splitRuns]
  | cons c cs => simp [splitRuns_cons]

theorem repRunsGo_wordRun (l : List Char) :
    repRunsGo l none = takeClass true l ++ repRunsGo (dropClass true l) none := by
  induction l with
  | nil => simp [takeClass, dropClass]
  | cons c cs ih =>
    by_cases h : isWordChar c = true
    · simp only [repRunsGo, h, if_true, takeClass, dropClass, beq_self_eq_true]
      simp [ih]
    · simp [repRunsGo, h, takeClass, dropClass]

theorem getLastD_cons_congr (t : Char) (ts : List Char) (c lc : Char) :
    (t :: ts).getLastD c = (t :: ts).getLastD lc := by
  induction ts generalizing t with
  | nil => simp [List.getLastD_cons]
  | cons u us ih => simp only [List.getLastD_cons, ih u]

theorem repRunsGo_inRun (l : List Char) (b : Bool) (lc : Char) :
    repRunsGo l (some (b, lc)) =
      if dropClass false l = [] then
        (if takeClass false l = [] then (if b then ['-', lc] else [lc])
         else ['-', (takeClass false l).getLastD lc])
      else '-' :: repRunsGo (dropClass false l) none := by
  induction l generalizing b lc with
  | nil => cases b <;> simp [repRunsGo, takeClass, dropClass]
  | cons c cs ih =>
    by_cases h : isWordChar c = true
    · simp [repRunsGo, h, dropClass, takeClass]
    · have hne : isWordChar c = false := by simpa using h
      have hcl : (isWordChar c == false) = true := by simp [hne]
      simp only [repRunsGo, hne, Bool.false_eq_true, if_false, dropClass, takeClass, hcl, if_true]
      rw [ih true c]
      by_cases hd : dropClass false cs = []
      · simp only [hd, if_true]
        cases ht : takeClass false cs with
        | nil => simp
        | cons t ts =>
          simp only [List.getLastD_eq_getLast?, reduceCtorEq, if_false]
          cases hx : (t :: ts).getLast? with
          | none => simp at hx
          | some u => simp [hx]
      · simp [hd]

theorem repRuns_eq_renderRuns_aux :
    ∀ (n : Nat) (l : List Char), l.length ≤ n → repRunsGo l none = renderRuns (splitRuns l) := by
  intro n
  induction n with
  | zero =>
    intro l hl
    have : l = [] := List.length_eq_zero.mp (Nat.le_zero.mp hl)
    subst this
    rfl
  | succ n ih =>
    intro l hl
    cases l with
    | nil => rfl
    | cons c cs =>
      have hcs : cs.length ≤ n := by
        simp only [List.length_cons] at hl
        omega
      by_cases h : isWordChar c = true
      · rw [splitRuns_cons, h]
        have lhs : repRunsGo (c :: cs) none = c :: repRunsGo cs none := by
          simp [repRunsGo, h]
        rw [lhs, repRunsGo_wordRun cs,
          ih (dropClass true cs) (le_trans (dropClass_length_le true cs) hcs)]
        cases hs : splitRuns (dropClass true cs) with
        | nil =>
          show c :: (takeClass true cs ++ renderRuns []) = renderTrailingRun (c :: takeClass true cs)
          simp [renderRuns, renderTrailingRun, h]
        | cons r rs =>
          show c :: (takeClass true cs ++ renderRuns (r :: rs)) =
            renderRun (c :: takeClass true cs) ++ renderRuns (r :: rs)
          simp [renderRun, h]
      · have hne : isWordChar c = false := by simpa using h
        rw [splitRuns_cons, hne]
        have lhs : repRunsGo (c :: cs) none = repRunsGo cs (some (false, c)) := by
          simp [repRunsGo, hne]
        rw [lhs, repRunsGo_inRun cs false c]
        by_cases hd : dropClass false cs = []
        · have hsp : splitRuns (dropClass false cs) = [] := by
            rw [hd]
            rfl
          rw [hsp, if_pos hd]
          show _ = renderTrailingRun (c :: takeClass false cs)
          cases ht : takeClass false cs with
          | nil => simp [renderTrailingRun, hne, ht]
          | cons t ts => simp [renderTrailingRun, hne, ht]
        · have hsp : splitRuns (dropClass false cs) ≠ [] := by
            simpa [splitRuns_eq_nil_iff] using hd
          rw [if_neg hd, ih (dropClass false cs) (le_trans (dropClass_length_le false cs) hcs)]
          cases hs : splitRuns (dropClass false cs) with
          | nil => exact absurd hs hsp
          | cons r rs =>
            show '-' :: renderRuns (r :: rs) =
              renderRun (c :: takeClass false cs) ++ renderRuns (r :: rs)
            simp [renderRun, hne]

theorem repRuns_eq_renderRuns (l : List Char) : repRuns l = renderRuns (splitRuns l) :=
  repRuns_eq_renderRuns_aux l.length l (le_refl _)

theorem sanitizeL_eq_amended (l : List Char) : sanitizeL l = amendedSanitizeL l := by
  rw [sanitizeL, amendedSanitizeL, repRuns_eq_renderRuns]

theorem insertKV_keys_of_mem {β : Type} (m : List (String × β)) (k : String) (v : β)
    (h : m.any (fun p => p.1 == k) = true) :
    (insertKV m k v).map Prod.fst = m.map Prod.fst := by
  simp only [insertKV, h, if_true, List.map_map]
  apply List.map_congr_left
  intro p _
  by_cases hp : p.1 = k
  · simp [Function.comp, hp]
  · simp [Function.comp, hp]

theorem insertKV_of_not_mem {β : Type} (m : List (String × β)) (k : String) (v : β)
    (h : k ∉ m.map Prod.fst) :
    insertKV m k v = m ++ [(k, v)] := by
  have hany : m.any (fun p => p.1 == k) = false := by
    rw [List.any_eq_false]
    intro p hp hk
    have hpk : p.1 = k := by simpa using hk
    exact h (hpk ▸ List.mem_map_of_mem Prod.fst hp)
  simp [insertKV, hany]

theorem insertKV_keys_of_not_mem {β : Type} (m : List (String × β)) (k : String) (v : β)
    (h : k ∉ m.map Prod.fst) :
    (insertKV m k v).map Prod.fst = m.map Prod.fst ++ [k] := by
  rw [insertKV_of_not_mem m k v h]
  simp

theorem insertKV_keys_nodup {β : Type} (m : List (String × β)) (k : String) (v : β)
    (h : (m.map Prod.fst).Nodup) : ((insertKV m k v).map Prod.fst).Nodup := by
  by_cases hk : k ∈ m.map Prod.fst
  · have hany : m.any (fun p => p.1 == k) = true := by
      rw [List.any_eq_true]
      rcases List.mem_map.mp hk with ⟨p, hp, hpk⟩
      exact ⟨p, hp, by simp [hpk]⟩
    rw [insertKV_keys_of_mem m k v hany]
    exact h
  · rw [insertKV_keys_of_not_mem m k v hk]
    simp [List.nodup_append, h, hk]

theorem contains_append_singleton (acc : List String) (x y : String) :
    (acc ++ [x]).contains y = (acc.contains y || y == x) := by
  induction acc with
  | nil =>
    simp only [List.nil_append, List.contains_cons, List.contains_nil, Bool.or_false,
      Bool.false_or]
  | cons a as ih =>
    simp only [List.cons_append, List.contains_cons, ih, Bool.or_assoc]

theorem foldl_addToSet_eq (l : List String) :
    ∀ acc : List String,
      l.foldl addToSet acc = acc ++ (dedupFirst l).filter (fun y => !(acc.contains y)) := by
  induction l with
  | nil => intro acc; simp [dedupFirst]
  | cons x xs ih =>
    intro acc
    rw [List.foldl_cons]
    by_cases hx : acc.contains x = true
    · rw [show addToSet acc x = acc from by rw [addToSet, if_pos hx]]
      rw [ih acc]
      congr 1
      rw [show dedupFirst (x :: xs) = x :: (dedupFirst xs).filter (fun y => !(y == x)) from rfl]
      rw [List.filter_cons]
      simp only [hx, Bool.not_true, Bool.false_eq_true, if_false]
      rw [List.filter_filter]
      apply List.filter_congr
      intro y _
      cases hyx : y == x with
      | true =>
        have heq : y = x := eq_of_beq hyx
        subst heq
        rw [hx]
        simp
      | false => simp [hyx]
    · have hx' : acc.contains x = false := by simpa using hx
      rw [show addToSet acc x = acc ++ [x] from by rw [addToSet, if_neg hx]]
      rw [ih (acc ++ [x])]
      rw [show dedupFirst (x :: xs) = x :: (dedupFirst xs).filter (fun y => !(y == x)) from rfl]
      rw [List.filter_cons]
      simp only [hx', Bool.not_false, if_true]
      rw [List.filter_filter, List.append_assoc, List.singleton_append]
      congr 2
      apply List.filter_congr
      intro y _
      rw [contains_append_singleton, Bool.not_or]

theorem queryParams_eq_dedupFirst (node : Oas30PathItem) :
    queryParams node = dedupFirst (allQueryNames node) := by
  rw [queryParams, allQueryNames]
  have flat : ∀ (ops : List Oas30Operation) (acc : List String),
      ops.foldl (fun acc op => (qpsForOp op).foldl addToSet acc) acc =
        (ops.flatMap qpsForOp).foldl addToSet acc := by
    intro ops
    induction ops with
    | nil => intro acc; simp
    | cons o os ih =>
      intro acc
      simp only [List.foldl_cons, List.flatMap_cons, List.foldl_append]
      exact ih _
  rw [flat]
  rw [foldl_addToSet_eq]
  simp

theorem ne_append_hyphen (b s : String) : b ≠ b ++ "-" ++ s := by
  intro h
  have hl := congrArg String.length h
  rw [String.length_append, String.length_append,
    show ("-" : String).length = 1 from rfl] at hl
  omega

theorem append_hyphen_inj (b : String) :
    Function.Injective (fun s => b ++ "-" ++ s) := by
  intro s t h
  have hd := congrArg String.data h
  simp only [String.data_append] at hd
  exact String.ext (List.append_cancel_left hd)

theorem lookupKV_map_replace {β : Type} (k : String) (v : β) :
    ∀ (m : List (String × β)), m.any (fun p => p.1 == k) = true →
      lookupKV (m.map (fun p => if p.1 == k then (k, v) else p)) k = some v := by
  intro m
  induction m with
  | nil => intro h; simp at h
  | cons p ps ih =>
    intro hmem
    cases hp : p.1 == k with
    | true =>
      simp only [List.map_cons, hp, if_true]
      rw [lookupKV, List.find?_cons]
      simp
    | false =>
      have hps : ps.any (fun q => q.1 == k) = true := by
        rw [List.any_cons, hp] at hmem
        simpa using hmem
      simp only [List.map_cons, hp, Bool.false_eq_true, if_false]
      rw [lookupKV, List.find?_cons, hp]
      exact ih hps

theorem lookupKV_append_fresh {β : Type} (k : String) (v : β) (m : List (String × β))
    (h : m.any (fun p => p.1 == k) = false) :
    lookupKV (m ++ [(k, v)]) k = some v := by
  rw [lookupKV, List.find?_append]
  have hnone : m.find? (fun p => p.1 == k) = none := by
    rw [List.find?_eq_none]
    intro p hp
    rw [List.any_eq_false] at h
    exact h p hp
  rw [hnone]
  simp [List.find?_cons]

theorem lookupKV_insertKV_self {β : Type} (m : List (String × β)) (k : String) (v : β) :
    lookupKV (insertKV m k v) k = some v := by
  cases hmem : m.any (fun p => p.1 == k) with
  | true =>
    rw [show insertKV m k v = m.map (fun p => if p.1 == k then (k, v) else p) from by
      rw [insertKV, if_pos hmem]]
    exact lookupKV_map_replace k v m hmem
  | false =>
    rw [show insertKV m k v = m ++ [(k, v)] from by rw [insertKV, hmem]; simp]
    exact lookupKV_append_fresh k v m hmem

theorem foldl_insertKV_fresh {α β : Type} (key : α → String) (val : α → β) :
    ∀ (l : List α) (m : List (String × β)),
      (∀ a ∈ l, key a ∉ m.map Prod.fst) → (l.map key).Nodup →
      l.foldl (fun acc a => insertKV acc (key a) (val a)) m =
        m ++ l.map (fun a => (key a, val a)) := by
  intro l
  induction l with
  | nil => intro m _ _; simp
  | cons a as ih =>
    intro m hfresh hnd
    rw [List.foldl_cons, insertKV_of_not_mem m (key a) (val a) (hfresh a (by simp))]
    have hnd2 : (as.map key).Nodup := by
      simpa using hnd.of_cons
    have hka : key a ∉ as.map key := by
      have := hnd
      simp only [List.map_cons, List.nodup_cons] at this
      exact this.1
    rw [ih (m ++ [(key a, val a)])
      (by
        intro x hx
        simp only [List.map_append, List.mem_append, List.map_cons, List.map_nil,
          List.mem_singleton]
        rintro (hm | hk)
        · exact hfresh x (by simp [hx]) hm
        · exact hka (hk ▸ List.mem_map_of_mem key hx))
      hnd2]
    simp

theorem visitParameterStep_ok (wnp : Oas30Parameter → Json) (wns : Option Oas30Schema → Json)
    (req : Request) (p : Oas30Parameter) (h : req.parameterSchema.isSome = true) :
    ∃ req2, visitParameterStep wnp wns req p = .ok req2 ∧
      req2.parameterSchema.isSome = true := by
  rcases Option.isSome_iff_exists.mp h with ⟨s, hs⟩
  rw [visitParameterStep, hs]
  cases href : jsTruthy p.ref with
  | true =>
    simp only [if_true]
    exact ⟨_, rfl, by simp⟩
  | false =>
    simp only [Bool.false_eq_true, if_false]
    exact ⟨_, rfl, by simp⟩

theorem foldParams_ok (wnp : Oas30Parameter → Json) (wns : Option Oas30Schema → Json) :
    ∀ (ps : List Oas30Parameter) (req : Request), req.parameterSchema.isSome = true →
      ∃ req', ps.foldlM (visitParameterStep wnp wns) req = .ok req' ∧
        req'.parameterSchema.isSome = true := by
  intro ps
  induction ps with
  | nil => intro req h; exact ⟨req, rfl, h⟩
  | cons p rest ih =>
    intro req h
    rcases visitParameterStep_ok wnp wns req p h with ⟨req2, hstep, h2⟩
    rcases ih req2 h2 with ⟨req', h1, h3⟩
    exact ⟨req', by rw [List.foldlM_cons, hstep]; simpa using h1, h3⟩

theorem opSubWalk_ok (wns : Option Oas30Schema → Json) (wnp : Oas30Parameter → Json)
    (ct : Option String) (op : Oas30Operation) (h : safeParams op) :
    ∃ r, opSubWalk wns wnp ct op = .ok r := by
  cases hw : opSubWalk wns wnp ct op with
  | ok r => exact ⟨r, rfl⟩
  | error e =>
    exfalso
    rcases h with h | h
    · rw [opSubWalk, h] at hw
      simp [pure, Except.pure] at hw
    · have hsk : (visitOperationStep ct op).parameterSchema.isSome = true := by
        simp [visitOperationStep, h]
      rcases foldParams_ok wnp wns op.parameters (visitOperationStep ct op) hsk with ⟨req, h1, _⟩
      rw [opSubWalk, h1] at hw
      simp at hw

theorem opSubWalk_eq_ok (wns : Option Oas30Schema → Json) (wnp : Oas30Parameter → Json)
    (ct : Option String) (op : Oas30Operation) (h : safeParams op) :
    opSubWalk wns wnp ct op = .ok (opSubWalkD wns wnp ct op) := by
  rcases opSubWalk_ok wns wnp ct op h with ⟨r, hr⟩
  rw [opSubWalkD, hr]

theorem fanout_foldlM_eq (wns : Option Oas30Schema → Json) (wnp : Oas30Parameter → Json)
    (op : Oas30Operation) (h : safeParams op) :
    ∀ (cts : List String) (m : List (String × Request)),
      cts.foldlM
        (fun (m : List (String × Request)) (ct : String) =>
          match opSubWalk wns wnp (some ct) op with
          | Except.error e => (Except.error e : Except String (List (String × Request)))
          | Except.ok r => Except.ok (insertKV m (requestBase op ++ "-" ++ sanitize ct) r))
        m =
      Except.ok (cts.foldl
        (fun m ct =>
          insertKV m (requestBase op ++ "-" ++ sanitize ct) (opSubWalkD wns wnp (some ct) op))
        m) := by
  intro cts
  induction cts with
  | nil => intro m; rfl
  | cons c rest ih =>
    intro m
    rw [List.foldlM_cons, opSubWalk_eq_ok wns wnp (some c) op h]
    simpa using ih _

theorem lookupKV_eq_none_of_not_mem {β : Type} (m : List (String × β)) (k : String)
    (h : k ∉ m.map Prod.fst) : lookupKV m k = none := by
  rw [lookupKV]
  rw [show m.find? (fun p => p.1 == k) = none from by
    rw [List.find?_eq_none]
    intro p hp hk
    exact h (by
      have : p.1 = k := by simpa using hk
      exact this ▸ List.mem_map_of_mem Prod.fst hp)]
  rfl

theorem dedupFirst_eq_nil_iff (l : List String) : dedupFirst l = [] ↔ l = [] := by
  cases l with
  | nil => simp [dedupFirst]
  | cons x xs => simp [dedupFirst]

/-- C4, counterexample.  The claim's trailing rule ("a trailing run of
non-word characters is left entirely untouched") disagrees with the code on
`"a++"`: the regex `/\W+(?!$)/g` backtracks inside the trailing run, so the code
yields `"a-+"` while the claim's rendering yields `"a++"`. -/
theorem C4_claim_counterexample :
    sanitize "a++" = "a-+" ∧
    sanitizeL ['a', '+', '+'] = ['a', '-', '+'] ∧
    claimSanitizeL ['a', '+', '+'] = ['a', '+', '+'] ∧
    sanitizeL ['a', '+', '+'] ≠ claimSanitizeL ['a', '+', '+'] := by
  refine ⟨rfl, rfl, by decide, by decide⟩

/-- C4, amended: sanitization lowercases the string and replaces every maximal
run of non-word characters that is not at the very end with one hyphen; a
trailing non-word run of a single character is left untouched, while a trailing
run of two or more characters is replaced by a hyphen followed by the run's
last character (`renderTrailingRun`); in particular
`application/vnd.api+json` sanitizes to `application-vnd-api-json`. -/
theorem C4_sanitize_amended :
    (∀ s : String, sanitize s = String.mk (amendedSanitizeL s.data)) ∧
    sanitize "application/vnd.api+json" = "application-vnd-api-json" := by
  constructor
  · intro s
    rw [sanitize, sanitizeL_eq_amended]
  · rfl

/-- C8: response base naming maps each of the nine tabulated status codes to
its RFC 9110 reason phrase, returns every other (non-empty) status code
unchanged, yields the literal `default` for an absent status code, and a
response declared with no status code (and no media types) produces exactly one
entry in the responses map, under the key `"default"`. -/
theorem C8_responseNamer :
    (∀ p ∈ responseNameMap, responseNameBase (some p.1) = p.2) ∧
    (∀ s : String, s ≠ "" → s ∉ responseNameMap.map Prod.fst →
      responseNameBase (some s) = s) ∧
    responseNameBase none = "default" ∧
    (∀ (wns : Option Oas30Schema → Json) (req : Request) (resp : Oas30Response),
      resp.statusCode = none → resp.mediaTypes = [] → req.responses = [] →
      (visitResponseStep wns req resp).responses =
        [("default", { statusCode := "default", description := resp.description })]) := by
  refine ⟨by decide, ?_, rfl, ?_⟩
  · intro s hs hnot
    rw [responseNameBase, statusCodeOf, jsOrString]
    simp only [hs, if_false]
    rw [lookupKV_eq_none_of_not_mem responseNameMap s hnot]
  · intro wns req resp h1 h2 h3
    rw [visitResponseStep, h1, h2, h3]
    simp only [show statusCodeOf none = "default" from rfl,
      show responseNameBase none = "default" from rfl]
    rfl

/-- C8, witness: the namer at concrete inputs 200, 503 and an absent status
code, and the `"default"` entry produced by a concrete statusless response. -/
theorem C8_responseNamer_witness :
    responseNameBase (some "200") = "OK" ∧
    responseNameBase (some "503") = "503" ∧
    responseNameBase none = "default" ∧
    (visitResponseStep wnsNull reqEmpty respNoMt).responses =
      [("default", { statusCode := "default", description := "d" })] := by
  refine ⟨C8_responseNamer.1 ("200", "OK") (by decide), ?_, C8_responseNamer.2.2.1, ?_⟩
  · exact C8_responseNamer.2.1 "503" (by decide) (by decide)
  · exact C8_responseNamer.2.2.2 wnsNull reqEmpty respNoMt rfl rfl rfl

/-- C7: for a path item whose raw path is not yet cached, the resolved key is
the raw path unchanged when no operation declares a query parameter, and
otherwise the raw path with a URI-template query expression over the distinct
query-parameter names (first-encounter order, comma-joined) appended; resolving
a path item with the same raw path again returns the identical string from the
cache without recomputation. -/
theorem C7_pathKey (cache : List (String × String)) (pi : Oas30PathItem)
    (hfresh : lookupKV cache pi.path = none) :
    (allQueryNames pi = [] → (getPathKey cache pi).2 = pi.path) ∧
    (allQueryNames pi ≠ [] →
      (getPathKey cache pi).2 =
        pi.path ++ "\x7b?" ++ String.intercalate "," (dedupFirst (allQueryNames pi)) ++ "\x7d") ∧
    (∀ pi2 : Oas30PathItem, pi2.path = pi.path →
      getPathKey (getPathKey cache pi).1 pi2 = ((getPathKey cache pi).1, (getPathKey cache pi).2)) := by
  have hqp : queryParams pi = dedupFirst (allQueryNames pi) := queryParams_eq_dedupFirst pi
  have hkey : getPathKey cache pi =
      (insertKV cache pi.path
        (if (queryParams pi).isEmpty then pi.path
         else pi.path ++ "\x7b?" ++ String.intercalate "," (queryParams pi) ++ "\x7d"),
       if (queryParams pi).isEmpty then pi.path
       else pi.path ++ "\x7b?" ++ String.intercalate "," (queryParams pi) ++ "\x7d") := by
    rw [getPathKey, hfresh]
  refine ⟨?_, ?_, ?_⟩
  · intro hq
    rw [hkey]
    have : (queryParams pi).isEmpty = true := by
      rw [hqp, hq]
      rfl
    simp [this]
  · intro hq
    rw [hkey]
    have hie : (dedupFirst (allQueryNames pi)).isEmpty = false := by
      cases hd : dedupFirst (allQueryNames pi) with
      | nil => exact absurd ((dedupFirst_eq_nil_iff _).mp hd) hq
      | cons a as => rfl
    simp only [hqp, hie, Bool.false_eq_true, if_false]
  · intro pi2 hp2
    rw [hkey]
    rw [getPathKey, hp2, lookupKV_insertKV_self]

/-- C7, witness: `/pets` with a single GET operation declaring query parameter
`limit` resolves to `/pets{?limit}`, and resolving a second path item with the
same raw path returns the identical cached string. -/
theorem C7_pathKey_witness :
    ((getPathKey [] piC7).2 =
      piC7.path ++ "\x7b?" ++ String.intercalate "," (dedupFirst (allQueryNames piC7)) ++ "\x7d") ∧
    (getPathKey [] piC7).2 = "/pets\x7b?limit\x7d" ∧
    getPathKey (getPathKey [] piC7).1 piC7 = ((getPathKey [] piC7).1, (getPathKey [] piC7).2) := by
  have h := C7_pathKey [] piC7 rfl
  exact ⟨h.2.1 (by decide), rfl, h.2.2 piC7 rfl⟩

theorem responseStep_single (wns : Option Oas30Schema → Json) (req : Request)
    (resp : Oas30Response) (mt : Oas30MediaType)
    (hm : resp.mediaTypes = [mt]) (hr : req.responses = []) :
    (visitResponseStep wns req resp).responses =
      [(responseNameBase resp.statusCode,
        { statusCode := statusCodeOf resp.statusCode, description := resp.description,
          contentType := some mt.name, contentSchema := some (wns mt.schema) }),
       (responseNameBase resp.statusCode ++ "-" ++ sanitize mt.name,
        { statusCode := statusCodeOf resp.statusCode, description := resp.description,
          contentType := some mt.name, contentSchema := some (wns mt.schema) })] := by
  have hne := ne_append_hyphen (responseNameBase resp.statusCode) (sanitize mt.name)
  rw [visitResponseStep, hm, hr]
  simp only [List.length_cons, List.length_nil, Nat.zero_add, le_refl, if_true]
  rw [show insertKV ([] : List (String × ResponseEntry)) (responseNameBase resp.statusCode)
      { statusCode := statusCodeOf resp.statusCode, description := resp.description,
        contentType := some mt.name, contentSchema := some (wns mt.schema) } =
      [(responseNameBase resp.statusCode,
        { statusCode := statusCodeOf resp.statusCode, description := resp.description,
          contentType := some mt.name, contentSchema := some (wns mt.schema) })] from rfl]
  rw [List.foldl_cons, List.foldl_nil]
  rw [insertKV_of_not_mem _ _ _ (by
    simp only [List.map_cons, List.map_nil, List.mem_singleton]
    exact fun hh => hne hh.symm)]
  rfl

theorem responseStep_multi (wns : Option Oas30Schema → Json) (req : Request)
    (resp : Oas30Response) (h2 : 2 ≤ resp.mediaTypes.length)
    (hnd : (resp.mediaTypes.map (fun mt => sanitize mt.name)).Nodup)
    (hr : req.responses = []) :
    (visitResponseStep wns req resp).responses =
      resp.mediaTypes.map (fun mt =>
        (responseNameBase resp.statusCode ++ "-" ++ sanitize mt.name,
         { statusCode := statusCodeOf resp.statusCode, description := resp.description,
           contentType := some mt.name, contentSchema := some (wns mt.schema) })) := by
  have hlen : ¬ (resp.mediaTypes.length ≤ 1) := by omega
  rw [visitResponseStep, hr]
  simp only [hlen, if_false]
  have hknd : (resp.mediaTypes.map
      (fun mt => responseNameBase resp.statusCode ++ "-" ++ sanitize mt.name)).Nodup := by
    have hmm : resp.mediaTypes.map
        (fun mt => responseNameBase resp.statusCode ++ "-" ++ sanitize mt.name) =
        (resp.mediaTypes.map (fun mt => sanitize mt.name)).map
          (fun s => responseNameBase resp.statusCode ++ "-" ++ s) := by
      rw [List.map_map]
      rfl
    rw [hmm]
    exact hnd.map (append_hyphen_inj (responseNameBase resp.statusCode))
  have hfold : resp.mediaTypes.foldl
      (fun acc mt => insertKV acc (responseNameBase resp.statusCode ++ "-" ++ sanitize mt.name)
        { statusCode := statusCodeOf resp.statusCode, description := resp.description,
          contentType := some mt.name, contentSchema := some (wns mt.schema) })
      ([] : List (String × ResponseEntry)) =
      [] ++ resp.mediaTypes.map (fun mt =>
        (responseNameBase resp.statusCode ++ "-" ++ sanitize mt.name,
         { statusCode := statusCodeOf resp.statusCode, description := resp.description,
           contentType := some mt.name, contentSchema := some (wns mt.schema) })) :=
    foldl_insertKV_fresh _ _ resp.mediaTypes [] (by simp) hknd
  rw [hfold]
  rfl

/-- C5: a response declaring exactly one media type contributes exactly two
entries to the responses map: one under the base status name and one under
`<base>-<sanitized-media-type>`, and both entries carry the same `contentType`
and the same serialized `contentSchema`; the two keys always differ. -/
theorem C5_response_single_media (wns : Option Oas30Schema → Json) (req : Request)
    (resp : Oas30Response) (mt : Oas30MediaType)
    (hm : resp.mediaTypes = [mt]) (hr : req.responses = []) :
    (visitResponseStep wns req resp).responses =
      [(responseNameBase resp.statusCode,
        { statusCode := statusCodeOf resp.statusCode, description := resp.description,
          contentType := some mt.name, contentSchema := some (wns mt.schema) }),
       (responseNameBase resp.statusCode ++ "-" ++ sanitize mt.name,
        { statusCode := statusCodeOf resp.statusCode, description := resp.description,
          contentType := some mt.name, contentSchema := some (wns mt.schema) })] ∧
    responseNameBase resp.statusCode ≠ responseNameBase resp.statusCode ++ "-" ++ sanitize mt.name :=
  ⟨responseStep_single wns req resp mt hm hr,
   ne_append_hyphen (responseNameBase resp.statusCode) (sanitize mt.name)⟩

/-- C5, witness: a concrete 200 response with media type `application/json`
produces exactly the base entry `OK` and the qualified entry
`OK-application-json`, with identical content type and schema. -/
theorem C5_response_single_media_witness :
    (visitResponseStep wnsNull reqEmpty respOneMt).responses =
      [("OK",
        { statusCode := "200", description := "ok",
          contentType := some "application/json", contentSchema := some Json.null }),
       ("OK-application-json",
        { statusCode := "200", description := "ok",
          contentType := some "application/json", contentSchema := some Json.null })] ∧
    ("OK" : String) ≠ "OK-application-json" :=
  ⟨(C5_response_single_media wnsNull reqEmpty respOneMt { name := "application/json" } rfl rfl).1,
   (C5_response_single_media wnsNull reqEmpty respOneMt { name := "application/json" } rfl rfl).2⟩

theorem fanout_single (wns : Option Oas30Schema → Json) (wnp : Oas30Parameter → Json)
    (m : List (String × Request)) (op : Oas30Operation)
    (hct : (contentTypesOf op).length ≤ 1) (hsafe : safeParams op) :
    docVisitOperationFold wns wnp m op =
      .ok (insertKV m (requestBase op)
        (opSubWalkD wns wnp ((contentTypesOf op).find? (fun s => !(s == ""))) op)) := by
  rw [docVisitOperationFold]
  simp only [hct, if_true]
  rw [opSubWalk_eq_ok wns wnp _ op hsafe]

theorem fanKeys_nodup (op : Oas30Operation)
    (hnd : ((contentTypesOf op).map sanitize).Nodup) :
    ((contentTypesOf op).map (fun ct => requestBase op ++ "-" ++ sanitize ct)).Nodup := by
  have hmm : (contentTypesOf op).map (fun ct => requestBase op ++ "-" ++ sanitize ct) =
      ((contentTypesOf op).map sanitize).map (fun s => requestBase op ++ "-" ++ s) := by
    rw [List.map_map]
    rfl
  rw [hmm]
  exact hnd.map (append_hyphen_inj (requestBase op))

theorem fanout_multi (wns : Option Oas30Schema → Json) (wnp : Oas30Parameter → Json)
    (op : Oas30Operation) (hsafe : safeParams op)
    (h2 : 2 ≤ (contentTypesOf op).length)
    (hnd : ((contentTypesOf op).map sanitize).Nodup) :
    docVisitOperationFold wns wnp [] op =
      .ok ((contentTypesOf op).map (fun ct =>
        (requestBase op ++ "-" ++ sanitize ct, opSubWalkD wns wnp (some ct) op))) := by
  have hlen : ¬ ((contentTypesOf op).length ≤ 1) := by omega
  rw [docVisitOperationFold]
  simp only [hlen, if_false]
  rw [fanout_foldlM_eq wns wnp op hsafe (contentTypesOf op) []]
  have hfold : (contentTypesOf op).foldl
      (fun m ct => insertKV m (requestBase op ++ "-" ++ sanitize ct)
        (opSubWalkD wns wnp (some ct) op)) ([] : List (String × Request)) =
      [] ++ (contentTypesOf op).map (fun ct =>
        (requestBase op ++ "-" ++ sanitize ct, opSubWalkD wns wnp (some ct) op)) :=
    foldl_insertKV_fresh _ _ (contentTypesOf op) [] (by simp) (fanKeys_nodup op hnd)
  rw [hfold]
  rfl

/-- C10: in the CombinedVisitorAdapter `OperationVisitor`, `visitOperation`
creates the `parameterSchema` skeleton only when some declared parameter is
path- or query-located, while `visitParameter` dereferences it unconditionally;
hence the sub-walk of any operation that declares at least one parameter but
none with a path- or query-location (for example, all-`$ref` parameters, which
carry no location) faults with a `TypeError` instead of skipping or recording
the parameter. -/
theorem C10_parameter_fault (wns : Option Oas30Schema → Json) (wnp : Oas30Parameter → Json)
    (ct : Option String) (op : Oas30Operation)
    (hne : op.parameters ≠ [])
    (hloc : ∀ p ∈ op.parameters, p.«in» ≠ some "path" ∧ p.«in» ≠ some "query") :
    opSubWalk wns wnp ct op = .error undefinedDeref := by
  have hany : op.parameters.any (fun p => p.«in» == some "path" || p.«in» == some "query") = false := by
    rw [List.any_eq_false]
    intro p hp
    have h := hloc p hp
    simp [h.1, h.2]
  have hsk : (visitOperationStep ct op).parameterSchema = none := by
    rw [visitOperationStep]
    simp only [hany, Bool.false_eq_true, if_false]
  cases hpar : op.parameters with
  | nil => exact absurd hpar hne
  | cons p ps =>
    have hstep : visitParameterStep wnp wns (visitOperationStep ct op) p =
        .error undefinedDeref := by
      rw [visitParameterStep, hsk]
    rw [opSubWalk, hpar, List.foldlM_cons, hstep]
    rfl

/-- C10, witness: an operation whose single parameter is a `$ref` faults. -/
theorem C10_parameter_fault_witness :
    opSubWalk wnsNull wnpNull none opAllRef = .error undefinedDeref :=
  C10_parameter_fault wnsNull wnpNull none opAllRef
    (by simp [opAllRef])
    (by
      intro p hp
      have hp2 : p = refParam := by simpa [opAllRef] using hp
      subst hp2
      exact ⟨by simp [refParam], by simp [refParam]⟩)

/-- C9: the transformation tolerates, without failing, a path item with no
operations, an operation with no parameters, a response with no media types
(which contributes exactly the base-named entry), and an operation whose
request body is absent (which still produces its single request entry). -/
theorem C9_tolerance :
    (∀ (wns : Option Oas30Schema → Json) (wnp : Oas30Parameter → Json)
      (cache : List (String × String)) (pi : Oas30PathItem),
      pi.get = none → pi.put = none → pi.post = none → pi.patch = none → pi.delete = none →
      pi.parameters = [] →
      ∃ v, processPathItem wns wnp cache pi = .ok v) ∧
    (∀ (wns : Option Oas30Schema → Json) (wnp : Oas30Parameter → Json)
      (ct : Option String) (op : Oas30Operation), op.parameters = [] →
      ∃ r, opSubWalk wns wnp ct op = .ok r) ∧
    (∀ (wns : Option Oas30Schema → Json) (req : Request) (resp : Oas30Response),
      resp.mediaTypes = [] →
      (visitResponseStep wns req resp).responses =
        insertKV req.responses (responseNameBase resp.statusCode)
          { statusCode := statusCodeOf resp.statusCode, description := resp.description }) ∧
    (∀ (wns : Option Oas30Schema → Json) (wnp : Oas30Parameter → Json)
      (op : Oas30Operation), op.requestBody = none → op.parameters = [] →
      ∃ r, docVisitOperationFold wns wnp [] op = .ok [(requestBase op, r)]) := by
  refine ⟨?_, ?_, ?_, ?_⟩
  · intro wns wnp cache pi h1 h2 h3 h4 h5 hpar
    refine ⟨((getPathKey cache pi).1, (getPathKey cache pi).2,
      { summary := jsOrUndef pi.summary, description := jsOrUndef pi.description }), ?_⟩
    rw [processPathItem, hpar]
    simp only [List.foldlM_nil]
    rw [show pathOps pi = [none, none, none, none, none] from by
      rw [pathOps, h1, h2, h3, h4, h5]]
    rfl
  · intro wns wnp ct op hpar
    exact opSubWalk_ok wns wnp ct op (Or.inl hpar)
  · intro wns req resp hmt
    rw [visitResponseStep, hmt]
    rfl
  · intro wns wnp op hrb hpar
    have hcts : contentTypesOf op = [] := by rw [contentTypesOf, hrb]
    rcases opSubWalk_ok wns wnp none op (Or.inl hpar) with ⟨r, hr⟩
    refine ⟨r, ?_⟩
    rw [docVisitOperationFold]
    simp only [hcts, List.length_nil, Nat.zero_le, if_true, List.find?_nil]
    rw [hr]
    rfl

/-- C9, witness: the four tolerated inputs at concrete fixtures. -/
theorem C9_tolerance_witness :
    (∃ v, processPathItem wnsNull wnpNull [] piNoOps = .ok v) ∧
    (∃ r, opSubWalk wnsNull wnpNull none opNoId = .ok r) ∧
    ((visitResponseStep wnsNull reqEmpty respNoMt).responses =
      insertKV reqEmpty.responses (responseNameBase respNoMt.statusCode)
        { statusCode := statusCodeOf respNoMt.statusCode, description := respNoMt.description }) ∧
    (∃ r, docVisitOperationFold wnsNull wnpNull [] opNoId = .ok [(requestBase opNoId, r)]) :=
  ⟨C9_tolerance.1 wnsNull wnpNull [] piNoOps rfl rfl rfl rfl rfl rfl,
   C9_tolerance.2.1 wnsNull wnpNull none opNoId rfl,
   C9_tolerance.2.2.1 wnsNull reqEmpty respNoMt rfl,
   C9_tolerance.2.2.2 wnsNull wnpNull opNoId rfl rfl⟩

/-- C6, counterexample.  For a required inline query parameter the claim's
handling would create `required := ["limit"]` on the path entry's
`parameterSchema`; the code's `Oas30Visitor.visitParameter` never creates a
`required` list (and has no `allOf` handling), so the two disagree at this
concrete input. -/
theorem C6_claim_counterexample :
    docVisitParameter entryEmpty qParam =
      .ok { parameterSchema := some { properties := [("limit", { type := some "integer" })] } } ∧
    claimedDocVisitParameter wnpNull entryEmpty qParam =
      { parameterSchema := some
          { properties := [("limit", { type := some "integer" })], required := some ["limit"] } } ∧
    ((docVisitParameter entryEmpty qParam).toOption.bind
        fun e => e.parameterSchema.map fun ps => ps.required) = some none ∧
    ((claimedDocVisitParameter wnpNull entryEmpty qParam).parameterSchema.map
        fun ps => ps.required) = some (some ["limit"]) ∧
    (some (none : Option (List String))) ≠ some (some ["limit"]) := by
  exact ⟨rfl, rfl, rfl, rfl, by decide⟩

/-- C6, amended: the document-level assembler, on a path-level parameter,
leaves the entry unchanged when the location is neither `path` nor `query`
(which covers `$ref` parameters, since they carry no location); for a
path/query parameter with an inline schema it stores the schema triple under
`parameterSchema.properties[name]` (skeleton created on first use) exactly as
`amendedDocVisitParameter` describes; a path/query parameter without a schema
faults; and no handled parameter ever creates or changes `required` or
`allOf`. -/
theorem C6_docParameter_amended (entry : PathEntry) (p : Oas30Parameter) :
    ((p.«in» ≠ some "path" ∧ p.«in» ≠ some "query") →
      docVisitParameter entry p = .ok entry) ∧
    ((p.«in» = some "path" ∨ p.«in» = some "query") → p.schema.isSome = true →
      docVisitParameter entry p = .ok (amendedDocVisitParameter entry p)) ∧
    ((p.«in» = some "path" ∨ p.«in» = some "query") → p.schema = none →
      docVisitParameter entry p = .error undefinedDeref) ∧
    (∀ e2, docVisitParameter entry p = .ok e2 →
      (e2.parameterSchema.elim none fun ps => ps.required) =
        (entry.parameterSchema.elim none fun ps => ps.required) ∧
      (e2.parameterSchema.elim none fun ps => ps.allOf) =
        (entry.parameterSchema.elim none fun ps => ps.allOf)) := by
  refine ⟨?_, ?_, ?_, ?_⟩
  · intro hne
    have hb : (p.«in» == some "path" || p.«in» == some "query") = false := by
      rw [show (p.«in» == some "path") = false from by simpa using hne.1,
        show (p.«in» == some "query") = false from by simpa using hne.2]
      rfl
    rw [docVisitParameter]
    simp only [hb, Bool.not_false, if_true]
  · intro hin hsch
    have hb : (p.«in» == some "path" || p.«in» == some "query") = true := by
      rcases hin with h | h <;> simp [h]
    rcases Option.isSome_iff_exists.mp hsch with ⟨sch, hs⟩
    rw [docVisitParameter, amendedDocVisitParameter]
    simp only [hb, Bool.not_true, Bool.false_eq_true, if_false, hs, Option.getD_some]
  · intro hin hs
    have hb : (p.«in» == some "path" || p.«in» == some "query") = true := by
      rcases hin with h | h <;> simp [h]
    rw [docVisitParameter]
    simp only [hb, Bool.not_true, Bool.false_eq_true, if_false, hs]
  · intro e2 he2
    by_cases hb : (p.«in» == some "path" || p.«in» == some "query") = true
    · cases hs : p.schema with
      | none =>
        rw [docVisitParameter] at he2
        simp only [hb, Bool.not_true, Bool.false_eq_true, if_false, hs] at he2
        exact absurd he2 (by simp)
      | some sch =>
        have hval : docVisitParameter entry p = .ok (amendedDocVisitParameter entry p) := by
          rw [docVisitParameter, amendedDocVisitParameter]
          simp only [hb, Bool.not_true, Bool.false_eq_true, if_false, hs, Option.getD_some]
        rw [hval] at he2
        have he3 : amendedDocVisitParameter entry p = e2 := Except.ok.inj he2
        rw [← he3, amendedDocVisitParameter]
        simp only [hb, Bool.not_true, Bool.false_eq_true, if_false]
        cases hps : entry.parameterSchema with
        | none => simp
        | some ps0 => simp
    · have hb2 : (p.«in» == some "path" || p.«in» == some "query") = false := by
        simpa using hb
      rw [docVisitParameter] at he2
      simp only [hb2, Bool.not_false, if_true, Except.ok.injEq] at he2
      rw [← he2]
      exact ⟨rfl, rfl⟩

/-- C6, witness: skip of a `$ref` parameter (no location), handling of a
concrete required inline query parameter, and the fault on a schema-less query
parameter. -/
theorem C6_docParameter_amended_witness :
    docVisitParameter entryEmpty refParam = .ok entryEmpty ∧
    docVisitParameter entryEmpty qParam = .ok (amendedDocVisitParameter entryEmpty qParam) ∧
    docVisitParameter entryEmpty { name := "q", «in» := some "query" } = .error undefinedDeref :=
  ⟨(C6_docParameter_amended entryEmpty refParam).1 ⟨by simp [refParam], by simp [refParam]⟩,
   (C6_docParameter_amended entryEmpty qParam).2.1 (Or.inr rfl) rfl,
   (C6_docParameter_amended entryEmpty { name := "q", «in» := some "query" }).2.2.1
     (Or.inr rfl) rfl⟩

/-- C2, counterexample.  With a present-but-empty `operationId` the code's
JavaScript falsy fallback (`node.operationId || node.getMethod()`) yields the
method name `"get"`, while the claim ("the key equal to the operation's
operationId, or, if operationId is absent, the method name") demands the
present operationId `""`. -/
theorem C2_claim_counterexample :
    (docVisitOperationFold wnsNull wnpNull [] opEmptyId).map (List.map Prod.fst) =
      .ok ["get"] ∧
    claimRequestBase opEmptyId = "" ∧
    (["get"] : List String) ≠ [""] :=
  ⟨rfl, rfl, by decide⟩

/-- C2, amended: for an operation whose request body declares zero or one
content types, exactly one request entry is produced and inserted under the
key equal to the operationId when that is present and non-empty, and otherwise
(absent or empty operationId) the HTTP method name. -/
theorem C2_single_request_key (wns : Option Oas30Schema → Json) (wnp : Oas30Parameter → Json)
    (m : List (String × Request)) (op : Oas30Operation)
    (hct : (contentTypesOf op).length ≤ 1) (hsafe : safeParams op) :
    (docVisitOperationFold wns wnp m op =
      .ok (insertKV m (requestBase op)
        (opSubWalkD wns wnp ((contentTypesOf op).find? (fun s => !(s == ""))) op))) ∧
    (docVisitOperationFold wns wnp [] op =
      .ok [(requestBase op,
        opSubWalkD wns wnp ((contentTypesOf op).find? (fun s => !(s == ""))) op)]) ∧
    (op.operationId = none → requestBase op = op.method) ∧
    (∀ s, op.operationId = some s → s ≠ "" → requestBase op = s) ∧
    (op.operationId = some "" → requestBase op = op.method) := by
  refine ⟨fanout_single wns wnp m op hct hsafe, ?_, ?_, ?_, ?_⟩
  · rw [fanout_single wns wnp [] op hct hsafe]
    rfl
  · intro h
    rw [requestBase, h]
    rfl
  · intro s h hs
    rw [requestBase, h, jsOrString]
    simp [hs]
  · intro h
    rw [requestBase, h]
    rfl

/-- C2, witness: an operationId-less GET operation with no request body gets
the single request key `"get"`. -/
theorem C2_single_request_key_witness :
    (docVisitOperationFold wnsNull wnpNull [] opNoId).map (List.map Prod.fst) = .ok ["get"] ∧
    requestBase opNoId = opNoId.method := by
  have h := C2_single_request_key wnsNull wnpNull [] opNoId (by decide) (Or.inl rfl)
  refine ⟨?_, h.2.2.1 rfl⟩
  rw [h.2.1]
  rfl

/-- C3, counterexample.  With a present-but-empty `operationId` and two
content types, the code produces keys `get-...` (falsy fallback to the
method), while the claim's `<base>-<sanitized>` with base = operationId
demands `-...`. -/
theorem C3_claim_counterexample :
    (docVisitOperationFold wnsNull wnpNull [] opEmptyIdTwoCts).map (List.map Prod.fst) =
      .ok ["get-application-json", "get-text-plain"] ∧
    (contentTypesOf opEmptyIdTwoCts).map
        (fun ct => claimRequestBase opEmptyIdTwoCts ++ "-" ++ sanitize ct) =
      ["-application-json", "-text-plain"] ∧
    (["get-application-json", "get-text-plain"] : List String) ≠
      ["-application-json", "-text-plain"] :=
  ⟨rfl, rfl, by decide⟩

/-- C3, amended: for an operation with N ≥ 2 request-body content types,
exactly N request entries are produced, under keys
`<base>-<sanitized-content-type>` where `<base>` is the operationId when
present and non-empty and otherwise the method name; when the sanitized
content types are pairwise distinct no two of the N keys collide. -/
theorem C3_fanout_request_keys (wns : Option Oas30Schema → Json)
    (wnp : Oas30Parameter → Json) (op : Oas30Operation)
    (h2 : 2 ≤ (contentTypesOf op).length) (hsafe : safeParams op)
    (hnd : ((contentTypesOf op).map sanitize).Nodup) :
    ∃ m, docVisitOperationFold wns wnp [] op = .ok m ∧
      m.map Prod.fst = (contentTypesOf op).map (fun ct => requestBase op ++ "-" ++ sanitize ct) ∧
      m.length = (contentTypesOf op).length ∧
      (m.map Prod.fst).Nodup ∧
      (∀ s, op.operationId = some s → s ≠ "" → requestBase op = s) ∧
      (op.operationId = none → requestBase op = op.method) := by
  refine ⟨_, fanout_multi wns wnp op hsafe h2 hnd, ?_, ?_, ?_, ?_, ?_⟩
  · rw [List.map_map]
    rfl
  · rw [List.length_map]
  · rw [show ((contentTypesOf op).map (fun ct =>
        (requestBase op ++ "-" ++ sanitize ct, opSubWalkD wns wnp (some ct) op))).map Prod.fst =
        (contentTypesOf op).map (fun ct => requestBase op ++ "-" ++ sanitize ct) from by
      rw [List.map_map]
      rfl]
    exact fanKeys_nodup op hnd
  · intro s h hs
    rw [requestBase, h, jsOrString]
    simp [hs]
  · intro h
    rw [requestBase, h]
    rfl

/-- C3, witness: a concrete operation with operationId `op1` and content types
`application/json` and `text/plain` produces exactly the two request keys
`op1-application-json` and `op1-text-plain`. -/
theorem C3_fanout_request_keys_witness :
    (docVisitOperationFold wnsNull wnpNull [] opTwoCts).map (List.map Prod.fst) =
      .ok ["op1-application-json", "op1-text-plain"] ∧
    (["op1-application-json", "op1-text-plain"] : List String).Nodup := by
  rcases C3_fanout_request_keys wnsNull wnpNull opTwoCts (by decide) (Or.inl rfl) (by decide)
    with ⟨m, hm, hkeys, hlen, hnd, _, _⟩
  constructor
  · rw [hm]
    show Except.ok (m.map Prod.fst) = Except.ok ["op1-application-json", "op1-text-plain"]
    rw [hkeys]
    rfl
  · decide

/-- C1, counterexample.  The content types `a+b` and `a-b` are distinct but
sanitize to the same suffix, so both fan-out insertions use the same request
key and the second silently overwrites the first: only one entry remains where
the claim promises two distinct keys and no overwriting. -/
theorem C1_claim_counterexample :
    contentTypesOf opCollide = ["a+b", "a-b"] ∧
    ("a+b" : String) ≠ "a-b" ∧
    requestBase opCollide ++ "-" ++ sanitize "a+b" =
      requestBase opCollide ++ "-" ++ sanitize "a-b" ∧
    (docVisitOperationFold wnsNull wnpNull [] opCollide).map List.length = .ok 1 :=
  ⟨rfl, by decide, rfl, rfl⟩

/-- C1, amended: the finished maps always have unique keys because JavaScript
object insertion overwrites on an already-used key; the produced keys
themselves are pairwise distinct (so no insertion overwrites) provided the
sanitized content types of a fan-out are pairwise distinct and the sanitized
media types of a response are pairwise distinct: insertion preserves key
uniqueness at every level, an N-content-type fan-out then yields exactly N
distinct request keys, and a response yields two distinct keys for one media
type and N distinct keys for N ≥ 2 media types. -/
theorem C1_key_uniqueness_amended :
    (∀ (β : Type) (m : List (String × β)) (k : String) (v : β),
      (m.map Prod.fst).Nodup → ((insertKV m k v).map Prod.fst).Nodup) ∧
    (∀ (wns : Option Oas30Schema → Json) (wnp : Oas30Parameter → Json)
      (op : Oas30Operation), safeParams op → 2 ≤ (contentTypesOf op).length →
      ((contentTypesOf op).map sanitize).Nodup →
      ∃ m, docVisitOperationFold wns wnp [] op = .ok m ∧
        (m.map Prod.fst).Nodup ∧ m.length = (contentTypesOf op).length) ∧
    (∀ (wns : Option Oas30Schema → Json) (req : Request) (resp : Oas30Response)
      (mt : Oas30MediaType), resp.mediaTypes = [mt] → req.responses = [] →
      ((visitResponseStep wns req resp).responses.map Prod.fst).Nodup ∧
      (visitResponseStep wns req resp).responses.length = 2) ∧
    (∀ (wns : Option Oas30Schema → Json) (req : Request) (resp : Oas30Response),
      2 ≤ resp.mediaTypes.length →
      (resp.mediaTypes.map (fun mt => sanitize mt.name)).Nodup → req.responses = [] →
      ((visitResponseStep wns req resp).responses.map Prod.fst).Nodup ∧
      (visitResponseStep wns req resp).responses.length = resp.mediaTypes.length) := by
  refine ⟨?_, ?_, ?_, ?_⟩
  · intro β m k v h
    exact insertKV_keys_nodup m k v h
  · intro wns wnp op hsafe h2 hnd
    refine ⟨_, fanout_multi wns wnp op hsafe h2 hnd, ?_, ?_⟩
    · rw [show ((contentTypesOf op).map (fun ct =>
          (requestBase op ++ "-" ++ sanitize ct, opSubWalkD wns wnp (some ct) op))).map Prod.fst =
          (contentTypesOf op).map (fun ct => requestBase op ++ "-" ++ sanitize ct) from by
        rw [List.map_map]
        rfl]
      exact fanKeys_nodup op hnd
    · rw [List.length_map]
  · intro wns req resp mt hm hr
    rw [responseStep_single wns req resp mt hm hr]
    refine ⟨?_, rfl⟩
    simp only [List.map_cons, List.map_nil, List.nodup_cons, List.mem_singleton,
      List.not_mem_nil, not_false_eq_true, List.nodup_nil, and_true]
    exact ne_append_hyphen (responseNameBase resp.statusCode) (sanitize mt.name)
  · intro wns req resp h2 hnd hr
    rw [responseStep_multi wns req resp h2 hnd hr]
    constructor
    · rw [show (resp.mediaTypes.map (fun mt =>
          (responseNameBase resp.statusCode ++ "-" ++ sanitize mt.name,
           ({ statusCode := statusCodeOf resp.statusCode, description := resp.description,
              contentType := some mt.name,
              contentSchema := some (wns mt.schema) } : ResponseEntry)))).map Prod.fst =
          resp.mediaTypes.map (fun mt =>
            responseNameBase resp.statusCode ++ "-" ++ sanitize mt.name) from by
        rw [List.map_map]
        rfl]
      have hmm : resp.mediaTypes.map
          (fun mt => responseNameBase resp.statusCode ++ "-" ++ sanitize mt.name) =
          (resp.mediaTypes.map (fun mt => sanitize mt.name)).map
            (fun s => responseNameBase resp.statusCode ++ "-" ++ s) := by
        rw [List.map_map]
        rfl
      rw [hmm]
      exact hnd.map (append_hyphen_inj (responseNameBase resp.statusCode))
    · rw [List.length_map]

/-- C1, witness: insertion keeps keys unique on a concrete map; a concrete
two-content-type fan-out yields two distinct keys; a concrete one-media-type
response yields two entries with distinct keys; a concrete two-media-type
response yields two entries with distinct keys. -/
theorem C1_key_uniqueness_amended_witness :
    ((insertKV [("a", "x")] "b" ("y" : String)).map Prod.fst).Nodup ∧
    (∃ m, docVisitOperationFold wnsNull wnpNull [] opTwoCts = .ok m ∧
      (m.map Prod.fst).Nodup ∧ m.length = (contentTypesOf opTwoCts).length) ∧
    (((visitResponseStep wnsNull reqEmpty respOneMt).responses.map Prod.fst).Nodup ∧
      (visitResponseStep wnsNull reqEmpty respOneMt).responses.length = 2) ∧
    (((visitResponseStep wnsNull reqEmpty respTwoMt).responses.map Prod.fst).Nodup ∧
      (visitResponseStep wnsNull reqEmpty respTwoMt).responses.length =
        respTwoMt.mediaTypes.length) :=
  ⟨C1_key_uniqueness_amended.1 String [("a", "x")] "b" "y" (by decide),
   C1_key_uniqueness_amended.2.1 wnsNull wnpNull opTwoCts (Or.inl rfl) (by decide) (by decide),
   C1_key_uniqueness_amended.2.2.1 wnsNull reqEmpty respOneMt
     { name := "application/json" } rfl rfl,
   C1_key_uniqueness_amended.2.2.2 wnsNull reqEmpty respTwoMt (by decide) (by decide) rfl⟩

end O2M
